import Mathlib

/-!
# Verification of the Naver keyword MCP server (`src/main.py`)

A shallow embedding of the pure parts of the server:

* `generate_signature` — HMAC-SHA256 request signing with standard base64
  output (the Python function composes `hmac`/`hashlib`/`base64`; the
  primitives are implemented here from their standards, FIPS 180-4,
  RFC 2104 and RFC 4648).
* `format_keywords` — normalization of raw keyword records, stable
  descending sort by monthly search volume, and Python-slice truncation.
* `mcp_post` — the JSON-RPC dispatcher (`initialize` / `tools/list` /
  `tools/call`), with the outbound HTTP fetch abstracted as a parameter.

JSON values that may appear in the dynamic dict fields are modelled by
`JVal` (strings and integers); absent dict keys by `Option`.
-/

set_option maxRecDepth 4096

namespace NaverMcp

/-- A JSON scalar as it appears in the external API's records:
either a string or an integer. -/
inductive JVal where
  | str (s : String)
  | num (n : Int)
  deriving DecidableEq

/-- The characters of Python `str(n)` for a natural number `n`
(decimal, no sign, no leading zeros). Fuel-based so that the kernel can
evaluate it; callers pass `n + 1` as fuel. -/
def natReprAux : Nat → Nat → List Char
  | 0, _ => []
  | fuel + 1, n =>
    if n < 10 then [Char.ofNat (48 + n)]
    else natReprAux fuel (n / 10) ++ [Char.ofNat (48 + n % 10)]

/-- Decimal digit characters of a natural number, as in Python `str`. -/
def natDigits (n : Nat) : List Char := natReprAux (n + 1) n

/-- Characters of Python `str(n)` for an integer `n` (`-` sign when
negative). -/
def intDigits (n : Int) : List Char :=
  if n < 0 then '-' :: natDigits n.natAbs else natDigits n.natAbs

/-- Python `str()` applied to a `JVal`: strings unchanged, integers in
decimal. -/
def pyStr : JVal → String
  | .str s => s
  | .num n => String.mk (intDigits n)

/-- Python `str.isdigit` on the characters of a string: non-empty and all
decimal digits. -/
def isDigits (l : List Char) : Bool :=
  !l.isEmpty && l.all Char.isDigit

/-- Positional value of a digit string, as computed by Python `int()` on a
string that passed `isdigit`. -/
def digitsVal (l : List Char) : Nat :=
  l.foldl (fun acc c => acc * 10 + (c.toNat - 48)) 0

/-- Python `int()` applied to a `JVal`; on strings it is only ever used
under an `isdigit` guard, where it returns the positional value. -/
def pyInt : JVal → Int
  | .str s => Int.ofNat (digitsVal s.data)
  | .num n => n

/-- One raw record of the external API's `keywordList`, with every field
optional (Python reads them with `dict.get`). -/
structure RawRecord where
  relKeyword : Option JVal
  monthlyPcQcCnt : Option JVal
  monthlyMobileQcCnt : Option JVal
  compIdx : Option JVal
  deriving DecidableEq

/-- The raw result of `get_related_keywords` as consumed by
`format_keywords`: a dict that may carry `error`, `detail` and
`keywordList` keys. -/
structure RawResult where
  error : Option JVal
  detail : Option JVal
  keywordList : Option (List RawRecord)
  deriving DecidableEq

/-- One entry of the sort key of `format_keywords` (line 80–81 of
`src/main.py`): `int(v) if str(v).isdigit() else 0`. -/
def sortKeyField (v : JVal) : Int :=
  if isDigits (pyStr v).data then pyInt v else 0

/-- The full sort key: PC count plus mobile count, each read with
`dict.get(_, 0)`. -/
def sortKey (r : RawRecord) : Int :=
  sortKeyField (r.monthlyPcQcCnt.getD (.num 0)) +
    sortKeyField (r.monthlyMobileQcCnt.getD (.num 0))

/-- The pairwise comparison realized by `sorted(..., key=..., reverse=True)`:
`a` may precede `b` exactly when `a`'s key is at least `b`'s. -/
def keywordLe (a b : RawRecord) : Bool := decide (sortKey b ≤ sortKey a)

/-- `sorted(keywords, key=..., reverse=True)` — Python's sort is stable;
`reverse=True` reverses the comparison, so an element goes first exactly
when its key is at least the other's. `List.mergeSort` is a stable sort,
so it is a faithful model. -/
def sortKeywords (l : List RawRecord) : List RawRecord :=
  l.mergeSort keywordLe

/-- Normalization of one count field in the output loop (lines 89–90):
`0 if str(v) == "< 10" else int(v) if str(v).isdigit() else 0`. -/
def normField (v : JVal) : Int :=
  if pyStr v = "< 10" then 0
  else if isDigits (pyStr v).data then pyInt v else 0

/-- One formatted entry of `topKeywords`. -/
structure RankedKeyword where
  keyword : JVal
  monthlySearches : Int
  pcSearches : Int
  mobileSearches : Int
  competition : JVal
  deriving DecidableEq

/-- The body of the output loop of `format_keywords` (lines 86–98). -/
def rankEntry (kw : RawRecord) : RankedKeyword :=
  let pc_val := normField (kw.monthlyPcQcCnt.getD (.num 0))
  let mobile_val := normField (kw.monthlyMobileQcCnt.getD (.num 0))
  { keyword := kw.relKeyword.getD (.str "")
    monthlySearches := pc_val + mobile_val
    pcSearches := pc_val
    mobileSearches := mobile_val
    competition := kw.compIdx.getD (.str "") }

/-- Python list slice `l[:n]` for an arbitrary integer bound: a
non-negative bound takes a prefix, a negative bound drops `-n` elements
from the end (clamped at the empty list). -/
def pySlice (n : Int) (l : List α) : List α :=
  if 0 ≤ n then l.take n.toNat else l.take (l.length - (-n).toNat)

/-- The three possible shapes of `format_keywords`' return value: the
input dict passed through, a fresh error dict, or the formatted result
dict. -/
inductive FmtOut where
  | raw (d : RawResult)
  | err (msg : String)
  | ok (searchKeyword : String) (totalResults : Nat) (topKeywords : List RankedKeyword)
  deriving DecidableEq

/-- `format_keywords(data, keyword, top_n)` from `src/main.py`
(lines 67–104). -/
def format_keywords (data : RawResult) (keyword : String) (top_n : Int) : FmtOut :=
  if data.error.isSome then .raw data
  else
    match data.keywordList with
    | none => .err "키워드 데이터 없음"
    | some keywords =>
      let keywords_sorted := sortKeywords keywords
      let result := (pySlice top_n keywords_sorted).map rankEntry
      .ok keyword keywords.length result

/-- `topKeywords` of a formatted result (empty for the error shapes);
used to state claims about the truncated list. -/
def topKeywordsOf : FmtOut → List RankedKeyword
  | .ok _ _ t => t
  | _ => []

/-! ## SHA-256 (FIPS 180-4), HMAC (RFC 2104), base64 (RFC 4648)

Bytes and 32-bit words are `Nat` with explicit reduction `% 2^32`. -/

/-- `2^32`, the word modulus of SHA-256. -/
def M32 : Nat := 4294967296

/-- Right rotation of a 32-bit word. -/
def rotr (n x : Nat) : Nat := ((x >>> n) ||| (x <<< (32 - n))) % M32

/-- `Σ₀` of FIPS 180-4. -/
def bigSigma0 (x : Nat) : Nat := rotr 2 x ^^^ rotr 13 x ^^^ rotr 22 x

/-- `Σ₁` of FIPS 180-4. -/
def bigSigma1 (x : Nat) : Nat := rotr 6 x ^^^ rotr 11 x ^^^ rotr 25 x

/-- `σ₀` of FIPS 180-4. -/
def smallSigma0 (x : Nat) : Nat := rotr 7 x ^^^ rotr 18 x ^^^ (x >>> 3)

/-- `σ₁` of FIPS 180-4. -/
def smallSigma1 (x : Nat) : Nat := rotr 17 x ^^^ rotr 19 x ^^^ (x >>> 10)

/-- The choice function `Ch(e,f,g)`. -/
def shaCh (e f g : Nat) : Nat := (e &&& f) ^^^ ((e ^^^ 4294967295) &&& g)

/-- The majority function `Maj(a,b,c)`. -/
def shaMaj (a b c : Nat) : Nat := (a &&& b) ^^^ (a &&& c) ^^^ (b &&& c)

/-- The 64 SHA-256 round constants (FIPS 180-4 §4.2.2, in decimal). -/
def K : List Nat :=
  [1116352408, 1899447441, 3049323471, 3921009573, 961987163,
   1508970993, 2453635748, 2870763221, 3624381080, 310598401,
   607225278, 1426881987, 1925078388, 2162078206, 2614888103,
   3248222580, 3835390401, 4022224774, 264347078, 604807628,
   770255983, 1249150122, 1555081692, 1996064986, 2554220882,
   2821834349, 2952996808, 3210313671, 3336571891, 3584528711,
   113926993, 338241895, 666307205, 773529912, 1294757372,
   1396182291, 1695183700, 1986661051, 2177026350, 2456956037,
   2730485921, 2820302411, 3259730800, 3345764771, 3516065817,
   3600352804, 4094571909, 275423344, 430227734, 506948616,
   659060556, 883997877, 958139571, 1322822218, 1537002063,
   1747873779, 1955562222, 2024104815, 2227730452, 2361852424,
   2428436474, 2756734187, 3204031479, 3329325298]

/-- The SHA-256 initial hash value (FIPS 180-4 §5.3.3, in decimal). -/
def H0 : List Nat :=
  [1779033703, 3144134277, 1013904242, 2773480762, 1359893119,
   2600822924, 528734635, 1541459225]

/-- Message-schedule extension; the accumulator holds the schedule in
reverse (most recent word first). -/
def scheduleAux : Nat → List Nat → List Nat
  | 0, r => r.reverse
  | fuel + 1, r =>
    scheduleAux fuel
      (((smallSigma1 (r.getD 1 0) + r.getD 6 0 + smallSigma0 (r.getD 14 0) + r.getD 15 0) % M32) :: r)

/-- The 64-word message schedule from the 16 words of a block. -/
def schedule (w16 : List Nat) : List Nat := scheduleAux 48 w16.reverse

/-- One compression round; the state is the list `[a,b,c,d,e,f,g,h]` and
`kw` is the premixed `Kₜ + Wₜ`. -/
def shaRound (st : List Nat) (kw : Nat) : List Nat :=
  let a := st.getD 0 0
  let b := st.getD 1 0
  let c := st.getD 2 0
  let d := st.getD 3 0
  let e := st.getD 4 0
  let f := st.getD 5 0
  let g := st.getD 6 0
  let h := st.getD 7 0
  let t1 := (h + bigSigma1 e + shaCh e f g + kw) % M32
  let t2 := (bigSigma0 a + shaMaj a b c) % M32
  [(t1 + t2) % M32, a, b, c, (d + t1) % M32, e, f, g]

/-- Compression of one 512-bit block into the running hash. -/
def compress (h : List Nat) (block16 : List Nat) : List Nat :=
  let kw := List.zipWith (fun x y => (x + y) % M32) K (schedule block16)
  let st := kw.foldl shaRound h
  List.zipWith (fun x y => (x + y) % M32) h st

/-- Big-endian grouping of bytes into 32-bit words. -/
def beWords : List Nat → List Nat
  | a :: b :: c :: d :: rest => (((a * 256 + b) * 256 + c) * 256 + d) :: beWords rest
  | _ => []

/-- Big-endian bytes of a 32-bit word. -/
def wordBytes (w : Nat) : List Nat :=
  [w / 16777216 % 256, w / 65536 % 256, w / 256 % 256, w % 256]

/-- The 8-byte big-endian length field of the SHA-256 padding. -/
def lenBytes8 (n : Nat) : List Nat :=
  [n / 72057594037927936 % 256, n / 281474976710656 % 256, n / 1099511627776 % 256,
   n / 4294967296 % 256, n / 16777216 % 256, n / 65536 % 256, n / 256 % 256, n % 256]

/-- SHA-256 padding: `0x80`, zeros to 56 mod 64, then the bit length. -/
def sha256Pad (msg : List Nat) : List Nat :=
  let k := (56 + 64 - (msg.length + 1) % 64) % 64
  msg ++ 128 :: (List.replicate k 0 ++ lenBytes8 (msg.length * 8))

/-- Split a byte list into 64-byte blocks (fuel-based for kernel
evaluation; callers pass the list length as fuel). -/
def chunksAux : Nat → List Nat → List (List Nat)
  | 0, _ => []
  | _ + 1, [] => []
  | fuel + 1, l => l.take 64 :: chunksAux fuel (l.drop 64)

/-- SHA-256 of a byte list, as a list of 32 digest bytes. -/
def sha256 (msg : List Nat) : List Nat :=
  let padded := sha256Pad msg
  let blocks := chunksAux padded.length padded
  let h := blocks.foldl (fun h b => compress h (beWords b)) H0
  (h.map wordBytes).flatten

/-- HMAC-SHA256 (RFC 2104): block size 64, `ipad = 0x36`, `opad = 0x5c`;
a key longer than one block is first hashed. -/
def hmacSha256 (key msg : List Nat) : List Nat :=
  let k1 := if 64 < key.length then sha256 key else key
  let k0 := k1 ++ List.replicate (64 - k1.length) 0
  sha256 ((k0.map (fun b => b ^^^ 92)) ++ sha256 ((k0.map (fun b => b ^^^ 54)) ++ msg))

/-- UTF-8 encoding of one character. -/
def utf8Char (c : Char) : List Nat :=
  let n := c.toNat
  if n < 128 then [n]
  else if n < 2048 then [192 + n / 64, 128 + n % 64]
  else if n < 65536 then [224 + n / 4096, 128 + n / 64 % 64, 128 + n % 64]
  else [240 + n / 262144, 128 + n / 4096 % 64, 128 + n / 64 % 64, 128 + n % 64]

/-- UTF-8 bytes of a string. -/
def utf8Bytes (s : String) : List Nat := (s.data.map utf8Char).flatten

/-- The standard (RFC 4648 §4) base64 alphabet. -/
def b64Alphabet : List Char :=
  "ABCDEFGHIJKLMNOPQRSTUVWXYZabcdefghijklmnopqrstuvwxyz0123456789+/".data

/-- Character for one 6-bit group. -/
def b64Char (n : Nat) : Char := b64Alphabet.getD n 'A'

/-- Base64 characters of a byte list, with `=` padding. -/
def b64Chars : List Nat → List Char
  | a :: b :: c :: rest =>
    b64Char (a / 4) :: b64Char (a % 4 * 16 + b / 16) ::
      b64Char (b % 16 * 4 + c / 64) :: b64Char (c % 64) :: b64Chars rest
  | [a, b] => [b64Char (a / 4), b64Char (a % 4 * 16 + b / 16), b64Char (b % 16 * 4), '=']
  | [a] => [b64Char (a / 4), b64Char (a % 4 * 16), '=', '=']
  | [] => []

/-- Standard base64 encoding of a byte list. -/
def base64Encode (bytes : List Nat) : String := String.mk (b64Chars bytes)

/-- `generate_signature(timestamp, method, path)` from `src/main.py`
(lines 26–34), with the module-level `SECRET_KEY` made an explicit
argument. -/
def generate_signature (SECRET_KEY timestamp method path : String) : String :=
  let message := timestamp ++ "." ++ method ++ "." ++ path
  base64Encode (hmacSha256 (utf8Bytes SECRET_KEY) (utf8Bytes message))

example : utf8Bytes "abc" = [97, 98, 99] := by decide

example : sha256 (utf8Bytes "abc") =
    [0xba, 0x78, 0x16, 0xbf, 0x8f, 0x01, 0xcf, 0xea, 0x41, 0x41, 0x40, 0xde, 0x5d, 0xae, 0x22, 0x23,
     0xb0, 0x03, 0x61, 0xa3, 0x96, 0x17, 0x7a, 0x9c, 0xb4, 0x10, 0xff, 0x61, 0xf2, 0x00, 0x15, 0xad] := by
  decide

example : base64Encode (utf8Bytes "foobar") = "Zm9vYmFy" := by decide

example : base64Encode (utf8Bytes "foob") = "Zm9vYg==" := by decide

example : hmacSha256 (utf8Bytes "Jefe") (utf8Bytes "what do ya want for nothing?") =
    [0x5b, 0xdc, 0xc1, 0x46, 0xbf, 0x60, 0x75, 0x4e, 0x6a, 0x04, 0x24, 0x26, 0x08, 0x95, 0x75, 0xc7,
     0x5a, 0x00, 0x3f, 0x08, 0x9d, 0x27, 0x39, 0x83, 0x9d, 0xec, 0x58, 0xb9, 0x64, 0xec, 0x38, 0x43] := by
  decide

/-! ## The JSON-RPC dispatcher (`POST /mcp`, lines 160–241)

The request body is modelled structurally, with `Option` for absent
keys (`dict.get` defaults are applied inside the dispatcher exactly as in
the source). The outbound call `get_related_keywords` is an explicit
function argument, since its result is the only part of it the dispatcher
observes. -/

/-- `params.arguments` of a `tools/call` request. -/
structure ToolArgs where
  keyword : Option String
  top_n : Option Int
  deriving DecidableEq

/-- `params` of a JSON-RPC request. -/
structure CallParams where
  name : Option String
  arguments : Option ToolArgs
  deriving DecidableEq

/-- A JSON-RPC request body; `id` is `none` when the key is absent
(serialized back as JSON `null`, which Python's `body.get("id")` also
produces). -/
structure RpcRequest where
  method : Option String
  params : Option CallParams
  id : Option JVal
  deriving DecidableEq

/-- One entry of the static `TOOLS` table. -/
structure ToolSpec where
  name : String
  description : String
  deriving DecidableEq

/-- The static tool registration table (lines 107–127). -/
def TOOLS : List ToolSpec :=
  [{ name := "get_naver_keywords"
     description := "네이버 검색광고 API를 사용하여 키워드의 연관 키워드와 월간 검색량을 조회합니다. 블로그 제목 최적화, SEO 키워드 분석에 활용할 수 있습니다." }]

/-- The `result` payload of a successful JSON-RPC response. -/
inductive RpcResult where
  | initializeInfo (protocolVersion serverName serverVersion : String)
  | toolsList (tools : List ToolSpec)
  | content (text : String)
  deriving DecidableEq

/-- A JSON-RPC response: success (`result`) or error (`error` object). -/
inductive RpcResponse where
  | success (id : Option JVal) (r : RpcResult)
  | rpcError (id : Option JVal) (code : Int) (message : String)
  deriving DecidableEq

/-- Thousands grouping of a reversed digit list (`{:,}` format). -/
def group3 : List Char → List Char
  | a :: b :: c :: d :: rest => a :: b :: c :: ',' :: group3 (d :: rest)
  | l => l

/-- Python `"{:,}".format(n)` for an integer. -/
def pyComma (n : Int) : String :=
  (if n < 0 then "-" else "") ++ String.mk ((group3 (natDigits n.natAbs).reverse).reverse)

/-- The rendered tool output for a formatted result (lines 214–227). -/
def resultText (formatted : FmtOut) : String :=
  match formatted with
  | .raw d => "오류: " ++ pyStr (d.error.getD (.str ""))
  | .err m => "오류: " ++ m
  | .ok sk tr tks =>
    String.intercalate "\n"
      (["🔍 '" ++ sk ++ "' 연관 키워드 분석 결과",
        "총 " ++ String.mk (natDigits tr) ++ "개 키워드 중 상위 " ++
          String.mk (natDigits tks.length) ++ "개",
        "",
        "순위 | 키워드 | 월간검색량 | 경쟁강도",
        "---|---|---|---"] ++
        (List.enumFrom 1 tks).map (fun p =>
          String.mk (natDigits p.1) ++ " | " ++ pyStr p.2.keyword ++ " | " ++
            pyComma p.2.monthlySearches ++ " | " ++ pyStr p.2.competition))

/-- `mcp_post` from `src/main.py` (lines 160–241), with the outbound
fetch `get_related_keywords` abstracted as `fetch`. -/
def mcp_post (fetch : String → RawResult) (body : RpcRequest) : RpcResponse :=
  let method := body.method.getD ""
  let params := body.params.getD ⟨none, none⟩
  let request_id := body.id
  if method = "initialize" then
    .success request_id (.initializeInfo "2024-11-05" "naver-keyword-mcp" "1.0.0")
  else if method = "tools/list" then
    .success request_id (.toolsList TOOLS)
  else if method = "tools/call" then
    let tool_name := params.name.getD ""
    let arguments := params.arguments.getD ⟨none, none⟩
    if tool_name = "get_naver_keywords" then
      let keyword := arguments.keyword.getD ""
      let top_n := arguments.top_n.getD 15
      if keyword = "" then
        .success request_id (.content "키워드를 입력해주세요.")
      else
        let raw_data := fetch keyword
        let formatted := format_keywords raw_data keyword top_n
        .success request_id (.content (resultText formatted))
    else .rpcError request_id (-32601) "Method not found"
  else .rpcError request_id (-32601) "Method not found"

/-! ## Helper lemmas: decimal digit strings -/

lemma isDigit_ofNat_digit (m : Nat) (h : m < 10) : (Char.ofNat (48 + m)).isDigit = true := by
  interval_cases m <;> decide

lemma natReprAux_digits : ∀ fuel n : Nat, n < fuel →
    (natReprAux fuel n).all Char.isDigit = true ∧ natReprAux fuel n ≠ []
  | 0, n, h => absurd h (Nat.not_lt_zero n)
  | fuel + 1, n, h => by
    by_cases h10 : n < 10
    · simp [natReprAux, h10, isDigit_ofNat_digit n h10]
    · have hd : n / 10 < n := Nat.div_lt_self (by omega) (by omega)
      have hf : n / 10 < fuel := by omega
      obtain ⟨ih1, ih2⟩ := natReprAux_digits fuel (n / 10) hf
      have hm : n % 10 < 10 := Nat.mod_lt n (by omega)
      simp [natReprAux, h10, ih1, isDigit_ofNat_digit (n % 10) hm]

lemma natDigits_all (n : Nat) : (natDigits n).all Char.isDigit = true ∧ natDigits n ≠ [] :=
  natReprAux_digits (n + 1) n (Nat.lt_succ_self n)

lemma isDigits_natDigits (n : Nat) : isDigits (natDigits n) = true := by
  obtain ⟨h1, h2⟩ := natDigits_all n
  simp [isDigits, h1, h2]

lemma pyStr_num_nonneg (n : Int) (h : 0 ≤ n) : (pyStr (.num n)).data = natDigits n.natAbs := by
  simp [pyStr, intDigits, Int.not_lt.mpr h]

lemma pyStr_num_nonneg_ne (n : Int) (h : 0 ≤ n) : pyStr (.num n) ≠ "< 10" := by
  intro hc
  have hdata : (pyStr (.num n)).data = ['<', ' ', '1', '0'] := by rw [hc]
  rw [pyStr_num_nonneg n h] at hdata
  have hall := (natDigits_all n.natAbs).1
  rw [hdata] at hall
  exact absurd hall (by decide)

lemma pyStr_num_neg_data (n : Int) (h : n < 0) :
    (pyStr (.num n)).data = '-' :: natDigits n.natAbs := by
  simp [pyStr, intDigits, h]

lemma isDigits_pyStr_num_neg (n : Int) (h : n < 0) : isDigits (pyStr (.num n)).data = false := by
  rw [pyStr_num_neg_data n h]
  simp [isDigits]

lemma pyStr_num_neg_ne (n : Int) (h : n < 0) : pyStr (.num n) ≠ "< 10" := by
  intro hc
  have hdata : (pyStr (.num n)).data = ['<', ' ', '1', '0'] := by rw [hc]
  rw [pyStr_num_neg_data n h] at hdata
  exact absurd (List.head_eq_of_cons_eq hdata) (by decide)

/-! ## Helper lemmas: normalization -/

lemma normField_num_nonneg (n : Int) (h : 0 ≤ n) : normField (.num n) = n := by
  have h1 := pyStr_num_nonneg n h
  simp [normField, pyStr_num_nonneg_ne n h, h1, isDigits_natDigits, pyInt]

lemma normField_num_neg (n : Int) (h : n < 0) : normField (.num n) = 0 := by
  simp [normField, pyStr_num_neg_ne n h, isDigits_pyStr_num_neg n h]

lemma sortKeyField_eq_normField (v : JVal) : sortKeyField v = normField v := by
  cases v with
  | str s =>
    by_cases hs : s = "< 10"
    · subst hs; decide
    · simp [sortKeyField, normField, pyStr, hs]
  | num n =>
    rcases lt_or_le n 0 with h | h
    · simp [sortKeyField, isDigits_pyStr_num_neg n h, normField_num_neg n h]
    · have h1 := pyStr_num_nonneg n h
      simp [sortKeyField, h1, isDigits_natDigits, normField_num_nonneg n h, pyInt]

/-- The normalized PC+mobile sum of one raw record: the quantity the
specification says the list is ranked by. -/
def normSum (r : RawRecord) : Int :=
  normField (r.monthlyPcQcCnt.getD (.num 0)) + normField (r.monthlyMobileQcCnt.getD (.num 0))

lemma sortKey_eq_normSum (r : RawRecord) : sortKey r = normSum r := by
  simp [sortKey, normSum, sortKeyField_eq_normField]

lemma rankEntry_monthlySearches (r : RawRecord) : (rankEntry r).monthlySearches = normSum r := rfl

/-! ## Helper lemmas: the stable descending sort -/

lemma keywordLe_trans : ∀ a b c : RawRecord, keywordLe a b → keywordLe b c → keywordLe a c := by
  intro a b c hab hbc
  simp only [keywordLe, decide_eq_true_eq] at *
  omega

lemma keywordLe_total : ∀ a b : RawRecord, keywordLe a b || keywordLe b a := by
  intro a b
  simp only [keywordLe, Bool.or_eq_true, decide_eq_true_eq]
  omega

lemma sortKeywords_pairwise (l : List RawRecord) :
    (sortKeywords l).Pairwise fun a b => sortKey b ≤ sortKey a := by
  have h := List.sorted_mergeSort keywordLe_trans keywordLe_total l
  exact h.imp fun hab => by simpa [keywordLe] using hab

lemma sortKeywords_filter (l : List RawRecord) (v : Int) :
    (sortKeywords l).filter (fun r => decide (sortKey r = v)) =
      l.filter (fun r => decide (sortKey r = v)) := by
  have hmem : ∀ a ∈ l.filter (fun r => decide (sortKey r = v)), sortKey a = v := by
    intro a ha
    simpa using List.of_mem_filter ha
  have hpair : (l.filter (fun r => decide (sortKey r = v))).Pairwise
      fun a b => keywordLe a b = true := by
    apply List.pairwise_of_forall_mem_list
    intro a ha b hb
    simp [keywordLe, hmem a ha, hmem b hb]
  have hsub : List.Sublist (l.filter (fun r => decide (sortKey r = v))) (sortKeywords l) :=
    List.sublist_mergeSort keywordLe_trans keywordLe_total hpair (List.filter_sublist l)
  have hself : (l.filter (fun r => decide (sortKey r = v))).filter
      (fun r => decide (sortKey r = v)) = l.filter (fun r => decide (sortKey r = v)) := by
    apply List.filter_eq_self.mpr
    intro a ha
    exact (List.mem_filter.mp ha).2
  have hsub2 : List.Sublist (l.filter (fun r => decide (sortKey r = v)))
      ((sortKeywords l).filter (fun r => decide (sortKey r = v))) := by
    have h3 := hsub.filter (fun r => decide (sortKey r = v))
    rwa [hself] at h3
  have hperm : List.Perm ((sortKeywords l).filter (fun r => decide (sortKey r = v)))
      (l.filter (fun r => decide (sortKey r = v))) :=
    (List.mergeSort_perm l keywordLe).filter _
  exact (hsub2.eq_of_length hperm.length_eq.symm).symm

/-- Evaluation of `List.mergeSort` on a two-element list (the definition
is by well-founded recursion, so the kernel cannot unfold it on concrete
input; this equation lets concrete cases be computed). -/
lemma mergeSort_two (le : α → α → Bool) (a b : α) :
    List.mergeSort [a, b] le = if le a b then [a, b] else [b, a] := by
  rw [List.mergeSort]
  simp [List.splitInTwo, List.splitAt_eq, List.merge]

/-- The per-field normalization as the specification describes it (with
the numeric case made explicit): the sentinel string `"< 10"` is 0, a
string of decimal digits is its value, a non-negative number is itself,
and everything else (missing, non-numeric string, negative number) is 0. -/
def specNormVal : Option JVal → Int
  | none => 0
  | some (.str s) =>
    if s = "< 10" then 0 else if isDigits s.data then (digitsVal s.data : Int) else 0
  | some (.num n) => if 0 ≤ n then n else 0

lemma normField_getD_eq_specNormVal (v : Option JVal) :
    normField (v.getD (.num 0)) = specNormVal v := by
  cases v with
  | none => decide
  | some w =>
    cases w with
    | str s =>
      by_cases hs : s = "< 10"
      · subst hs; decide
      · simp [normField, specNormVal, pyStr, pyInt, hs]
    | num n =>
      rcases lt_or_le n 0 with h | h
      · simp [normField_num_neg n h, specNormVal, Int.not_le.mpr h]
      · simp [normField_num_nonneg n h, specNormVal, h]

lemma specNormVal_nonneg (v : Option JVal) : 0 ≤ specNormVal v := by
  cases v with
  | none => decide
  | some w =>
    cases w with
    | str s =>
      simp only [specNormVal]
      split
      · decide
      · split
        · exact Int.natCast_nonneg _
        · decide
    | num n =>
      simp only [specNormVal]
      split
      · assumption
      · decide

/-! ## Claims -/

/-- C1: for every keyword list, `format`'s sort (`sortKeywords`, the
intermediate list `format_keywords` truncates) is a permutation of the
input, is ordered descending by the normalized PC+mobile sum `normSum`,
and is stable: records with equal normalized sums keep the relative
order they had in the input list (the elements with any fixed key value
form the same subsequence before and after sorting). -/
theorem format_sorts_descending_stable (l : List RawRecord) :
    List.Perm (sortKeywords l) l ∧
    (sortKeywords l).Pairwise (fun a b => normSum b ≤ normSum a) ∧
    ∀ v : Int, (sortKeywords l).filter (fun r => decide (normSum r = v)) =
      l.filter (fun r => decide (normSum r = v)) := by
  refine ⟨List.mergeSort_perm l keywordLe, ?_, ?_⟩
  · exact (sortKeywords_pairwise l).imp fun hab => by
      rw [← sortKey_eq_normSum, ← sortKey_eq_normSum]; exact hab
  · intro v
    have hfun : (fun r => decide (normSum r = v)) = fun r => decide (sortKey r = v) := by
      funext r
      rw [sortKey_eq_normSum]
    rw [hfun]
    exact sortKeywords_filter l v

/-- C2: `generate_signature` returns exactly the standard base64 encoding
of the HMAC-SHA256 digest, keyed by the UTF-8 bytes of the secret, of the
UTF-8 bytes of the canonical message `"{timestamp}.{method}.{path}"`. As
a Lean function of its four arguments it is pure and deterministic:
identical inputs yield the identical signature string. -/
theorem generate_signature_spec (SECRET_KEY timestamp method path : String) :
    generate_signature SECRET_KEY timestamp method path =
      base64Encode (hmacSha256 (utf8Bytes SECRET_KEY)
        (utf8Bytes (timestamp ++ "." ++ method ++ "." ++ path))) := rfl

/-- C3 (amended): each output entry's `pcSearches` and `mobileSearches`
are the normalization of the raw fields — sentinel `"< 10"` to 0, digit
strings to their value, non-negative numbers to themselves, anything
else to 0 — the normalized values are non-negative, and
`monthlySearches` is their sum. -/
theorem rankEntry_normalization :
    (∀ r : RawRecord,
        (rankEntry r).pcSearches = specNormVal r.monthlyPcQcCnt ∧
        (rankEntry r).mobileSearches = specNormVal r.monthlyMobileQcCnt ∧
        (rankEntry r).monthlySearches = (rankEntry r).pcSearches + (rankEntry r).mobileSearches) ∧
    ∀ v : Option JVal, 0 ≤ specNormVal v := by
  constructor
  · intro r
    refine ⟨?_, ?_, rfl⟩
    · exact normField_getD_eq_specNormVal r.monthlyPcQcCnt
    · exact normField_getD_eq_specNormVal r.monthlyMobileQcCnt
  · exact specNormVal_nonneg

/-- C3 counterexample to the claim as stated: a raw PC count that is the
JSON *number* `500` (not a digit string) is neither the sentinel nor "a
string composed entirely of decimal digits", so the claim's "any other
value maps to 0" would require `pcSearches = 0`; the code normalizes it
to `500`. -/
theorem rankEntry_numeric_counterexample :
    (rankEntry ⟨none, some (.num 500), none, none⟩).pcSearches = 500 ∧ (500 : Int) ≠ 0 := by
  decide

lemma format_spec_eq (d : RawResult) (kw : String) (tn : Int) (l : List RawRecord)
    (h1 : d.error = none) (h2 : d.keywordList = some l) :
    format_keywords d kw tn = .ok kw l.length ((pySlice tn (sortKeywords l)).map rankEntry) := by
  simp [format_keywords, h1, h2]

lemma length_sortKeywords (l : List RawRecord) : (sortKeywords l).length = l.length :=
  List.length_mergeSort l

/-- C4 counterexample to the claim as stated: with a two-record
`keywordList` and `topN = -1` (which is `≤ 0`), Python's slice `[: -1]`
keeps the first record, so `topKeywords` is not empty. -/
theorem format_negative_topn_counterexample :
    ((-1 : Int) ≤ 0) ∧
    (topKeywordsOf (format_keywords
        ⟨none, none, some [⟨none, none, none, none⟩, ⟨none, none, none, none⟩]⟩
        "kw" (-1))).length ≠ 0 := by
  have hsort : sortKeywords [(⟨none, none, none, none⟩ : RawRecord), ⟨none, none, none, none⟩] =
      [⟨none, none, none, none⟩, ⟨none, none, none, none⟩] := by
    rw [sortKeywords, mergeSort_two, if_pos (by decide)]
  refine ⟨by decide, ?_⟩
  rw [format_spec_eq _ _ _ _ rfl rfl, hsort]
  decide

/-- C4 (amended): for every raw result with a `keywordList` of `n`
records, `topN = 0` yields an empty `topKeywords`, while a negative
`topN` follows Python slice semantics and yields the first
`max(0, n + topN)` entries of the ranked list (so `topKeywords` is empty
only when `topN ≤ -n`); in all cases `totalResults` is the full count
`n`. -/
theorem format_nonpositive_topn (d : RawResult) (kw : String) (l : List RawRecord) (tn : Int)
    (h1 : d.error = none) (h2 : d.keywordList = some l) (h : tn ≤ 0) :
    format_keywords d kw tn = .ok kw l.length
      (((sortKeywords l).take (if tn = 0 then 0 else l.length - (-tn).toNat)).map rankEntry) ∧
    (topKeywordsOf (format_keywords d kw tn)).length =
      if tn = 0 then 0 else l.length - (-tn).toNat := by
  have hfmt := format_spec_eq d kw tn l h1 h2
  have hsl : pySlice tn (sortKeywords l) =
      (sortKeywords l).take (if tn = 0 then 0 else l.length - (-tn).toNat) := by
    by_cases h0 : tn = 0
    · subst h0
      simp [pySlice]
    · have hneg : ¬ (0 ≤ tn) := by omega
      rw [pySlice, if_neg hneg, if_neg h0, length_sortKeywords]
  rw [hfmt, hsl]
  refine ⟨rfl, ?_⟩
  simp only [topKeywordsOf, List.length_map, List.length_take, length_sortKeywords]
  by_cases h0 : tn = 0
  · simp [h0]
  · simp only [h0, if_false]
    omega

/-- C4 witness: a one-record list with `topN = -1`; the slice drops the
single record, `topKeywords` has `max(0, 1 + (-1)) = 0` entries and
`totalResults` is still 1. -/
theorem format_nonpositive_topn_witness :
    ((⟨none, none, some [⟨none, none, none, none⟩]⟩ : RawResult).error = none) ∧
    ((⟨none, none, some [⟨none, none, none, none⟩]⟩ : RawResult).keywordList =
      some [⟨none, none, none, none⟩]) ∧
    ((-1 : Int) ≤ 0) ∧
    (format_keywords ⟨none, none, some [⟨none, none, none, none⟩]⟩ "kw" (-1) =
      .ok "kw" [(⟨none, none, none, none⟩ : RawRecord)].length
        (((sortKeywords [⟨none, none, none, none⟩]).take
          (if (-1 : Int) = 0 then 0 else
            [(⟨none, none, none, none⟩ : RawRecord)].length - (-(-1 : Int)).toNat)).map rankEntry) ∧
     (topKeywordsOf (format_keywords ⟨none, none, some [⟨none, none, none, none⟩]⟩ "kw" (-1))).length =
      if (-1 : Int) = 0 then 0 else
        [(⟨none, none, none, none⟩ : RawRecord)].length - (-(-1 : Int)).toNat) :=
  ⟨rfl, rfl, by decide, format_nonpositive_topn _ "kw" _ (-1) rfl rfl (by decide)⟩

/-- C5: for a raw result with a `keywordList` of `n` records and
`topN ≥ 0`, `topKeywords` is exactly the first `min(topN, n)` entries of
the ranked (sorted-and-mapped) list and `totalResults` is `n`, the count
before truncation. -/
theorem format_truncation (d : RawResult) (kw : String) (l : List RawRecord) (tn : Int)
    (h1 : d.error = none) (h2 : d.keywordList = some l) (h : 0 ≤ tn) :
    format_keywords d kw tn = .ok kw l.length (((sortKeywords l).map rankEntry).take tn.toNat) ∧
    (topKeywordsOf (format_keywords d kw tn)).length = min tn.toNat l.length := by
  have hfmt := format_spec_eq d kw tn l h1 h2
  rw [show pySlice tn (sortKeywords l) = (sortKeywords l).take tn.toNat from by
    rw [pySlice, if_pos h]] at hfmt
  refine ⟨by rw [hfmt, List.map_take], ?_⟩
  rw [hfmt]
  simp only [topKeywordsOf, List.length_map, List.length_take, length_sortKeywords]

/-- C5 witness: `topN = 3` over a 10-element keyword list, echoing the
specification's test scenario: `topKeywords` has `min(3, 10) = 3` entries
and `totalResults` is 10. -/
theorem format_truncation_witness :
    ((⟨none, none, some (List.replicate 10 ⟨none, none, none, none⟩)⟩ : RawResult).error = none) ∧
    ((⟨none, none, some (List.replicate 10 ⟨none, none, none, none⟩)⟩ : RawResult).keywordList =
      some (List.replicate 10 ⟨none, none, none, none⟩)) ∧
    ((0 : Int) ≤ 3) ∧
    (format_keywords ⟨none, none, some (List.replicate 10 ⟨none, none, none, none⟩)⟩ "kw" 3 =
      .ok "kw" (List.replicate 10 (⟨none, none, none, none⟩ : RawRecord)).length
        (((sortKeywords (List.replicate 10 ⟨none, none, none, none⟩)).map rankEntry).take
          (Int.toNat 3)) ∧
     (topKeywordsOf (format_keywords
        ⟨none, none, some (List.replicate 10 ⟨none, none, none, none⟩)⟩ "kw" 3)).length =
      min (Int.toNat 3) (List.replicate 10 (⟨none, none, none, none⟩ : RawRecord)).length) :=
  ⟨rfl, rfl, by decide, format_truncation _ "kw" _ 3 rfl rfl (by decide)⟩

/-- C6: an input that already carries an `error` field is returned
unchanged by `format_keywords`, whatever the keyword and `topN`
arguments are. -/
theorem format_error_passthrough (d : RawResult) (kw : String) (tn : Int)
    (h : d.error.isSome = true) : format_keywords d kw tn = .raw d := by
  simp [format_keywords, h]

/-- C6 witness: `format` on `{error: "x"}` returns it unchanged. -/
theorem format_error_passthrough_witness :
    ((⟨some (.str "x"), none, none⟩ : RawResult).error.isSome = true) ∧
    format_keywords ⟨some (.str "x"), none, none⟩ "kw" 15 = .raw ⟨some (.str "x"), none, none⟩ :=
  ⟨by decide, format_error_passthrough _ "kw" 15 (by decide)⟩

/-- C7: an input with neither an `error` field nor a `keywordList` field
makes `format_keywords` return exactly `{error: "키워드 데이터 없음"}`. -/
theorem format_missing_keyword_list (d : RawResult) (kw : String) (tn : Int)
    (h1 : d.error = none) (h2 : d.keywordList = none) :
    format_keywords d kw tn = .err "키워드 데이터 없음" := by
  simp [format_keywords, h1, h2]

/-- C7 witness: `format` on the empty dict returns the missing-data
error. -/
theorem format_missing_keyword_list_witness :
    ((⟨none, none, none⟩ : RawResult).error = none) ∧
    ((⟨none, none, none⟩ : RawResult).keywordList = none) ∧
    format_keywords ⟨none, none, none⟩ "kw" 15 = .err "키워드 데이터 없음" :=
  ⟨rfl, rfl, format_missing_keyword_list _ "kw" 15 rfl rfl⟩

/-- C8: a `tools/call` request for `get_naver_keywords` whose arguments
carry an empty or absent keyword gets a success-shaped JSON-RPC response
(a `result`, not an `error` object) whose content is the prompt text
"키워드를 입력해주세요.", with the request id echoed; this holds for every
possible outcome of the outbound fetch, which is never consulted. -/
theorem mcp_empty_keyword_prompt (fetch : String → RawResult) (body : RpcRequest)
    (hm : body.method.getD "" = "tools/call")
    (hn : (body.params.getD ⟨none, none⟩).name.getD "" = "get_naver_keywords")
    (hk : ((body.params.getD ⟨none, none⟩).arguments.getD ⟨none, none⟩).keyword.getD "" = "") :
    mcp_post fetch body = .success body.id (.content "키워드를 입력해주세요.") := by
  simp [mcp_post, hm, hn, hk]

/-- C8 witness: `tools/call` for `get_naver_keywords` with empty
arguments (no `keyword` key at all) and id 1. -/
theorem mcp_empty_keyword_prompt_witness :
    ((⟨some "tools/call", some ⟨some "get_naver_keywords", some ⟨none, none⟩⟩,
        some (.num 1)⟩ : RpcRequest).method.getD "" = "tools/call") ∧
    (((⟨some "tools/call", some ⟨some "get_naver_keywords", some ⟨none, none⟩⟩,
        some (.num 1)⟩ : RpcRequest).params.getD ⟨none, none⟩).name.getD "" =
      "get_naver_keywords") ∧
    ((((⟨some "tools/call", some ⟨some "get_naver_keywords", some ⟨none, none⟩⟩,
        some (.num 1)⟩ : RpcRequest).params.getD
          ⟨none, none⟩).arguments.getD ⟨none, none⟩).keyword.getD "" = "") ∧
    mcp_post (fun _ => ⟨none, none, none⟩)
        ⟨some "tools/call", some ⟨some "get_naver_keywords", some ⟨none, none⟩⟩, some (.num 1)⟩ =
      .success (some (.num 1)) (.content "키워드를 입력해주세요.") :=
  ⟨rfl, rfl, rfl,
    mcp_empty_keyword_prompt (fun _ => ⟨none, none, none⟩) _ rfl rfl rfl⟩

/-- C9: a request whose method is none of `initialize`, `tools/list`,
`tools/call` — and likewise a `tools/call` request whose `params.name`
is not `get_naver_keywords` — gets the JSON-RPC error object with code
`-32601` and message "Method not found", carrying the original request
id verbatim (`none`, serialized as JSON null, when the id is absent). -/
theorem mcp_method_not_found :
    (∀ (fetch : String → RawResult) (body : RpcRequest),
      body.method.getD "" ≠ "initialize" → body.method.getD "" ≠ "tools/list" →
      body.method.getD "" ≠ "tools/call" →
      mcp_post fetch body = .rpcError body.id (-32601) "Method not found") ∧
    (∀ (fetch : String → RawResult) (body : RpcRequest),
      body.method.getD "" = "tools/call" →
      (body.params.getD ⟨none, none⟩).name.getD "" ≠ "get_naver_keywords" →
      mcp_post fetch body = .rpcError body.id (-32601) "Method not found") := by
  constructor
  · intro fetch body h1 h2 h3
    simp [mcp_post, h1, h2, h3]
  · intro fetch body hm hn
    simp [mcp_post, hm, hn]

/-- C9 witness: an unknown method `"foo"` with id 7, and a `tools/call`
for an unknown tool `"other_tool"` with the id absent (echoed as
`none`). -/
theorem mcp_method_not_found_witness :
    ((⟨some "foo", none, some (.num 7)⟩ : RpcRequest).method.getD "" ≠ "initialize") ∧
    ((⟨some "foo", none, some (.num 7)⟩ : RpcRequest).method.getD "" ≠ "tools/list") ∧
    ((⟨some "foo", none, some (.num 7)⟩ : RpcRequest).method.getD "" ≠ "tools/call") ∧
    mcp_post (fun _ => ⟨none, none, none⟩) ⟨some "foo", none, some (.num 7)⟩ =
      .rpcError (some (.num 7)) (-32601) "Method not found" ∧
    ((⟨some "tools/call", some ⟨some "other_tool", none⟩, none⟩ : RpcRequest).method.getD "" =
      "tools/call") ∧
    (((⟨some "tools/call", some ⟨some "other_tool", none⟩,
        none⟩ : RpcRequest).params.getD ⟨none, none⟩).name.getD "" ≠ "get_naver_keywords") ∧
    mcp_post (fun _ => ⟨none, none, none⟩) ⟨some "tools/call", some ⟨some "other_tool", none⟩, none⟩ =
      .rpcError none (-32601) "Method not found" :=
  ⟨by decide, by decide, by decide,
    mcp_method_not_found.1 (fun _ => ⟨none, none, none⟩) _ (by decide) (by decide) (by decide),
    rfl, by decide,
    mcp_method_not_found.2 (fun _ => ⟨none, none, none⟩) _ rfl (by decide)⟩

/-- C10: the value the sort orders each record by (`sortKey`, which has
no explicit `"< 10"` branch) coincides with the `monthlySearches`
value reported for that record in the output, and consequently the
`topKeywords` list of every successful `format_keywords` result is
ordered descending by its entries' `monthlySearches` fields. -/
theorem sort_key_agrees_with_output :
    (∀ r : RawRecord, sortKey r = (rankEntry r).monthlySearches) ∧
    ∀ (d : RawResult) (kw : String) (tn : Int) (sk : String) (tr : Nat)
      (tks : List RankedKeyword), format_keywords d kw tn = .ok sk tr tks →
      tks.Pairwise fun a b => b.monthlySearches ≤ a.monthlySearches := by
  constructor
  · intro r
    rw [sortKey_eq_normSum, rankEntry_monthlySearches]
  · intro d kw tn sk tr tks h
    unfold format_keywords at h
    split at h
    · exact FmtOut.noConfusion h
    · split at h
      · exact FmtOut.noConfusion h
      · rename_i keywords heq
        rw [FmtOut.ok.injEq] at h
        obtain ⟨-, -, h3⟩ := h
        subst h3
        apply List.pairwise_map.mpr
        have hsl : List.Sublist (pySlice tn (sortKeywords keywords)) (sortKeywords keywords) := by
          rw [pySlice]
          split <;> exact List.take_sublist _ _
        exact ((sortKeywords_pairwise keywords).sublist hsl).imp fun hab => by
          rw [rankEntry_monthlySearches, rankEntry_monthlySearches,
            ← sortKey_eq_normSum, ← sortKey_eq_normSum]
          exact hab

/-- C10 witness: a singleton keyword list; the produced `topKeywords`
is pairwise descending in `monthlySearches`. -/
theorem sort_key_agrees_with_output_witness :
    format_keywords ⟨none, none, some [⟨some (.str "a"), some (.str "30"), none, none⟩]⟩ "kw" 15 =
      .ok "kw" 1 [rankEntry ⟨some (.str "a"), some (.str "30"), none, none⟩] ∧
    List.Pairwise (fun a b => b.monthlySearches ≤ a.monthlySearches)
      [rankEntry ⟨some (.str "a"), some (.str "30"), none, none⟩] := by
  have heq : format_keywords
      ⟨none, none, some [⟨some (.str "a"), some (.str "30"), none, none⟩]⟩ "kw" 15 =
      .ok "kw" 1 [rankEntry ⟨some (.str "a"), some (.str "30"), none, none⟩] := by
    rw [format_spec_eq _ _ _ _ rfl rfl]
    rw [show sortKeywords [⟨some (.str "a"), some (.str "30"), none, none⟩] =
      [⟨some (.str "a"), some (.str "30"), none, none⟩] from List.mergeSort_singleton _]
    decide
  exact ⟨heq, sort_key_agrees_with_output.2 _ "kw" 15 "kw" 1 _ heq⟩

end NaverMcp
